import Mathlib

/-!
Shallow embedding of the shopwareLabs/discord-bot verification system.

The embedding follows the Go source:
* `models/verification.go` — the SQLite-backed `VerificationStore`
  (`Store`, `Get`, `GetByDiscordID`, `Delete`, `CreateUser`,
  `CreateUserWithAzureID`, `GetUser`, `GetUserByAzureID`,
  `IsUserVerified`, `IsUserVerifiedByAzureID`);
* the database schema created by `migrate` (users table with
  `discord_id TEXT UNIQUE NOT NULL` and `azure_user_id TEXT UNIQUE NOT NULL`,
  verifications table with `code TEXT UNIQUE NOT NULL`);
* `handlers/discord.go` — the grant orchestrator
  (`VerifyUserDirectly`, `VerifyUser`);
* `handlers/oauth.go` — the OAuth `Callback` state validation.

Tables are lists of rows; `DATETIME` values are `Int` instants; Go's
`time.Now()` is passed explicitly as `now`.  External collaborators
(Discord role API, user lookup, DM channel, OAuth code exchange, ID-token
verification) are oracles supplied in an environment record, and every
external call the handler makes is recorded in an event trace.
-/

/-- Go's `strings.HasSuffix(s, suffix)`: true iff `suffix` is a suffix of
    `s` (the handlers use it with the ASCII literal `"@shopware.com"`,
    where byte-wise and character-wise suffix agree). -/
def hasSuffix (s suffix : String) : Bool :=
  suffix.data.isSuffixOf s.data

/-- A row of the `verifications` table
    (`code`, `discord_id`, `email`, `expires_at`, `created_at`). -/
structure VerRow where
  code : String
  discordID : String
  email : String
  expiresAt : Int
  createdAt : Int
deriving DecidableEq, Repr

/-- A row of the `users` table.  `azure_user_id` is `Option String`
    because the legacy `CreateUser` INSERT omits the column (SQL `NULL`),
    while the schema declares it `TEXT UNIQUE NOT NULL`. -/
structure UserRow where
  discordID : String
  azureUserID : Option String
  email : String
  name : String
deriving DecidableEq, Repr

/-- `VerificationStore.Get`: `SELECT ... FROM verifications WHERE code = ?
    AND expires_at > ?` with `? = now`; `QueryRow` yields the first
    matching row or not-found. -/
def VerificationStore.Get (rows : List VerRow) (code : String) (now : Int) :
    Option VerRow :=
  rows.find? (fun r => r.code == code && decide (now < r.expiresAt))

/-- Stateful view of `Get`: a `SELECT` leaves the table unchanged. -/
def VerificationStore.GetS (rows : List VerRow) (code : String) (now : Int) :
    Option VerRow × List VerRow :=
  (VerificationStore.Get rows code now, rows)

/-- Accumulator for `ORDER BY created_at DESC LIMIT 1`: keep the row with
    the greatest `created_at` seen so far. -/
def latestStep (acc : Option VerRow) (r : VerRow) : Option VerRow :=
  match acc with
  | none => some r
  | some m => if m.createdAt < r.createdAt then some r else some m

/-- `VerificationStore.GetByDiscordID`: `SELECT ... WHERE discord_id = ?
    AND expires_at > ? ORDER BY created_at DESC LIMIT 1`. -/
def VerificationStore.GetByDiscordID (rows : List VerRow) (discordID : String)
    (now : Int) : Option VerRow :=
  (rows.filter (fun r => r.discordID == discordID && decide (now < r.expiresAt))).foldl
    latestStep none

/-- `VerificationStore.Delete`: `DELETE FROM verifications WHERE code = ?`.
    `Exec` reports success even when zero rows match. -/
def VerificationStore.Delete (rows : List VerRow) (code : String) :
    Except String Unit × List VerRow :=
  (Except.ok (), rows.filter (fun r => r.code != code))

/-- INSERT into the `users` table under the schema created by `migrate` on
    a fresh database: `azure_user_id TEXT UNIQUE NOT NULL`,
    `discord_id TEXT UNIQUE NOT NULL`.  SQLite rejects the row when the
    NOT NULL constraint or either UNIQUE constraint is violated; the
    table is unchanged on failure. -/
def insertUsersRow (t : List UserRow) (r : UserRow) :
    Except String Unit × List UserRow :=
  if r.azureUserID.isNone then
    (Except.error "NOT NULL constraint failed: users.azure_user_id", t)
  else if t.any (fun u => u.discordID == r.discordID) then
    (Except.error "UNIQUE constraint failed: users.discord_id", t)
  else if t.any (fun u => u.azureUserID == r.azureUserID) then
    (Except.error "UNIQUE constraint failed: users.azure_user_id", t)
  else
    (Except.ok (), t ++ [r])

/-- `VerificationStore.CreateUser` (legacy): `INSERT INTO users
    (discord_id, email, name, verified_at) VALUES (...)` — no
    `azure_user_id` value, so SQL `NULL` is inserted for that column.
    Errors are wrapped as `failed to create user: %w`. -/
def VerificationStore.CreateUser (t : List UserRow) (discordID email name : String) :
    Except String Unit × List UserRow :=
  match insertUsersRow t ⟨discordID, none, email, name⟩ with
  | (Except.error m, t') => (Except.error ("failed to create user: " ++ m), t')
  | (Except.ok _, t') => (Except.ok (), t')

/-- `VerificationStore.CreateUserWithAzureID`: `INSERT INTO users
    (discord_id, azure_user_id, email, name, verified_at) VALUES (...)`. -/
def VerificationStore.CreateUserWithAzureID (t : List UserRow)
    (discordID azureUserID email name : String) :
    Except String Unit × List UserRow :=
  match insertUsersRow t ⟨discordID, some azureUserID, email, name⟩ with
  | (Except.error m, t') => (Except.error ("failed to create user: " ++ m), t')
  | (Except.ok _, t') => (Except.ok (), t')

/-- `VerificationStore.IsUserVerified`: `GetUser` does
    `SELECT ... WHERE discord_id = ?`; verified iff a row exists. -/
def VerificationStore.IsUserVerified (t : List UserRow) (discordID : String) : Bool :=
  t.any (fun u => u.discordID == discordID)

/-- `VerificationStore.IsUserVerifiedByAzureID`: `GetUserByAzureID` does
    `SELECT ... WHERE azure_user_id = ?`; a SQL `NULL` column never
    equals the queried string. -/
def VerificationStore.IsUserVerifiedByAzureID (t : List UserRow)
    (azureUserID : String) : Bool :=
  t.any (fun u => u.azureUserID == some azureUserID)

/-- The persistent state the handlers touch: the two SQLite tables. -/
structure World where
  users : List UserRow
  verifications : List VerRow
deriving DecidableEq, Repr

/-- One external call made by a handler, recorded in order.  Store reads
    and writes are not external; the attempted `users` INSERT is recorded
    (with the row the handler built) so that the persistence step itself
    is observable. -/
inductive Event where
  | roleAdd (discordID : String)
  | userFetch (discordID : String)
  | insertUser (row : UserRow)
  | dmSend (discordID : String)
  | exchange (code : String)
  | verifyToken (raw : String)
deriving DecidableEq, Repr

/-- Oracle results for the external calls a single grant invocation makes:
    `time.Now()`, `GuildMemberRoleAdd` outcome, `session.User` outcome
    (`none` = error, name falls back to `"Unknown"`), `UserChannelCreate`
    outcome, and a simulated store fault on the `users` INSERT. -/
structure Env where
  now : Int
  roleAddOk : Bool
  userLookup : String → Option String
  dmChannelOk : Bool
  insertFault : Bool

/-- Result of a grant invocation: Go return value, post-state, trace. -/
structure GrantOut where
  result : Except String Unit
  world : World
  trace : List Event

/-- The `users` INSERT as the handlers perform it: a simulated database
    fault fails the `Exec`; otherwise the schema constraints decide. -/
def attemptInsert (env : Env) (t : List UserRow) (r : UserRow) :
    Except String Unit × List UserRow :=
  if env.insertFault then (Except.error "failed to create user: disk I/O error", t)
  else if r.azureUserID.isNone then
    VerificationStore.CreateUser t r.discordID r.email r.name
  else
    match r.azureUserID with
    | some a => VerificationStore.CreateUserWithAzureID t r.discordID a r.email r.name
    | none => VerificationStore.CreateUser t r.discordID r.email r.name

/-- `DiscordHandler.VerifyUserDirectly(discordID, azureUserID, email)`:
    1. reject unless `strings.HasSuffix(email, "@shopware.com")`;
    2. reject if `IsUserVerifiedByAzureID(azureUserID)`;
    3. `GuildMemberRoleAdd` — on error return `failed to add role`;
    4. `session.User(discordID)` — on error use name `"Unknown"`;
    5. `CreateUserWithAzureID` — on error only log, do not return it;
    6. best-effort DM;
    7. return nil. -/
def VerifyUserDirectly (env : Env) (w : World)
    (discordID azureUserID email : String) : GrantOut :=
  if !(hasSuffix email "@shopware.com") then
    ⟨Except.error "email domain not allowed", w, []⟩
  else if VerificationStore.IsUserVerifiedByAzureID w.users azureUserID then
    ⟨Except.error "user is already verified", w, []⟩
  else if !env.roleAddOk then
    ⟨Except.error "failed to add role", w, [Event.roleAdd discordID]⟩
  else
    let userName := (env.userLookup discordID).getD "Unknown"
    let row : UserRow := ⟨discordID, some azureUserID, email, userName⟩
    let ins := attemptInsert env w.users row
    let w2 : World := { w with users := ins.2 }
    let dmEvents := if env.dmChannelOk then [Event.dmSend discordID] else []
    ⟨Except.ok (), w2,
      [Event.roleAdd discordID, Event.userFetch discordID, Event.insertUser row]
        ++ dmEvents⟩

/-- `DiscordHandler.VerifyUser(code)`:
    1. `store.Get(code)` — not found: `invalid or expired verification code`;
    2. reject (and delete the code) unless the stored email has the
       allowed suffix;
    3. reject (and delete the code) if `IsUserVerified(vc.DiscordID)`;
    4. `GuildMemberRoleAdd` — on error return `failed to add role`;
    5. `session.User` — on error use `"Unknown"`;
    6. legacy `CreateUser` — on error only log;
    7. best-effort DM;
    8. delete the code; return nil. -/
def VerifyUser (env : Env) (w : World) (code : String) : GrantOut :=
  match VerificationStore.Get w.verifications code env.now with
  | none => ⟨Except.error "invalid or expired verification code", w, []⟩
  | some vc =>
    if !(hasSuffix vc.email "@shopware.com") then
      ⟨Except.error "email domain not allowed",
        { w with verifications := (VerificationStore.Delete w.verifications code).2 },
        []⟩
    else if VerificationStore.IsUserVerified w.users vc.discordID then
      ⟨Except.error "user is already verified",
        { w with verifications := (VerificationStore.Delete w.verifications code).2 },
        []⟩
    else if !env.roleAddOk then
      ⟨Except.error "failed to add role", w, [Event.roleAdd vc.discordID]⟩
    else
      let userName := (env.userLookup vc.discordID).getD "Unknown"
      let row : UserRow := ⟨vc.discordID, none, vc.email, userName⟩
      let ins := attemptInsert env w.users row
      let dmEvents := if env.dmChannelOk then [Event.dmSend vc.discordID] else []
      let w2 : World :=
        { users := ins.2,
          verifications := (VerificationStore.Delete w.verifications code).2 }
      ⟨Except.ok (), w2,
        [Event.roleAdd vc.discordID, Event.userFetch vc.discordID,
          Event.insertUser row] ++ dmEvents⟩

/-- The gin session: a string-keyed value store.  `StartAuth` stores
    `oauth_state ↦ state` and `discord_id_<state> ↦ discordID`. -/
structure Session where
  kv : List (String × String)
deriving DecidableEq, Repr

/-- `session.Get(key)`. -/
def Session.get (s : Session) (key : String) : Option String :=
  (s.kv.find? (fun p => p.1 == key)).map (fun p => p.2)

/-- `session.Delete(key)`. -/
def Session.del (s : Session) (key : String) : Session :=
  ⟨s.kv.filter (fun p => p.1 != key)⟩

/-- The claims struct `Callback` decodes from the verified ID token. -/
structure Claims where
  sub : String
  email : String
  preferredUsername : String
  upn : String
deriving DecidableEq, Repr

/-- Oracles for the identity-provider black box: `oauthConfig.Exchange`
    (`none` = exchange error; `some tok` carries `tok.Extra("id_token")`
    as an optional raw ID token) and `verifier.Verify` plus claims
    decoding (`none` = verification failure). -/
structure OAuthEnv where
  exchange : String → Option (Option String)
  verify : String → Option Claims

/-- What the callback renders: an `error.html` page or `success.html`. -/
inductive CbResult where
  | errorPage (msg : String)
  | successPage (email : String)
deriving DecidableEq, Repr

/-- True iff the callback rendered an error page. -/
def CbResult.isError : CbResult → Bool
  | CbResult.errorPage _ => true
  | CbResult.successPage _ => false

/-- Result of one `Callback` invocation. -/
structure CbOut where
  result : CbResult
  session : Session
  world : World
  trace : List Event

/-- `OAuthHandler.Callback` (handlers/oauth.go): checks `code` and
    `state` presence, validates `state` against the session's
    `oauth_state` (exact string equality), looks up the bound Discord ID,
    consumes the session entries, exchanges the authorization code,
    verifies the ID token, applies the email fallback chain
    (email → preferred_username → upn), and calls `VerifyUserDirectly`. -/
def Callback (env : Env) (oenv : OAuthEnv) (sess : Session) (w : World)
    (code state : String) : CbOut :=
  if code == "" then
    ⟨CbResult.errorPage "Authorization code not provided", sess, w, []⟩
  else if state == "" then
    ⟨CbResult.errorPage "Missing state parameter", sess, w, []⟩
  else
    match Session.get sess "oauth_state" with
    | none => ⟨CbResult.errorPage "Invalid state parameter", sess, w, []⟩
    | some st =>
      if st != state then
        ⟨CbResult.errorPage "Invalid state parameter", sess, w, []⟩
      else
        match Session.get sess ("discord_id_" ++ state) with
        | none => ⟨CbResult.errorPage "Session expired or invalid", sess, w, []⟩
        | some discordID =>
          let sess2 := Session.del (Session.del sess "oauth_state")
            ("discord_id_" ++ state)
          match oenv.exchange code with
          | none =>
            ⟨CbResult.errorPage "Failed to authenticate with Microsoft", sess2, w,
              [Event.exchange code]⟩
          | some rawOpt =>
            match rawOpt with
            | none =>
              ⟨CbResult.errorPage "No ID token found", sess2, w,
                [Event.exchange code]⟩
            | some raw =>
              match oenv.verify raw with
              | none =>
                ⟨CbResult.errorPage "Failed to verify ID token", sess2, w,
                  [Event.exchange code, Event.verifyToken raw]⟩
              | some claims =>
                if claims.sub == "" then
                  ⟨CbResult.errorPage "Invalid authentication response", sess2, w,
                    [Event.exchange code, Event.verifyToken raw]⟩
                else
                  let email :=
                    if claims.email != "" then claims.email
                    else if claims.preferredUsername != "" then claims.preferredUsername
                    else claims.upn
                  if email == "" then
                    ⟨CbResult.errorPage "No email found in authentication response",
                      sess2, w, [Event.exchange code, Event.verifyToken raw]⟩
                  else
                    let g := VerifyUserDirectly env w discordID claims.sub email
                    match g.result with
                    | Except.error msg =>
                      ⟨CbResult.errorPage msg, sess2, g.world,
                        [Event.exchange code, Event.verifyToken raw] ++ g.trace⟩
                    | Except.ok _ =>
                      ⟨CbResult.successPage email, sess2, g.world,
                        [Event.exchange code, Event.verifyToken raw] ++ g.trace⟩

/-- "At most one GrantedUser record per chat identity": all rows of the
    users table carry pairwise distinct `discord_id` values. -/
def UniqueDiscord (t : List UserRow) : Prop :=
  t.Pairwise (fun u v => u.discordID ≠ v.discordID)

/-- Concrete environment: every external call succeeds. -/
def envOK : Env :=
  { now := 0, roleAddOk := true, userLookup := fun _ => some "Bob",
    dmChannelOk := true, insertFault := false }

/-- Concrete environment: role add succeeds, the Discord user lookup
    errors, and the users INSERT hits a simulated store fault. -/
def envFaulty : Env :=
  { now := 0, roleAddOk := true, userLookup := fun _ => none,
    dmChannelOk := true, insertFault := true }

/-- Concrete identity-provider oracle that fails everything. -/
def oenvNone : OAuthEnv := ⟨fun _ => none, fun _ => none⟩

/-- Concrete empty state. -/
def wEmpty : World := ⟨[], []⟩

/-- Concrete state in which Discord ID `d1` is already granted, backed by
    Azure ID `a1`. -/
def wGranted : World := ⟨[⟨"d1", some "a1", "old@shopware.com", "Old"⟩], []⟩

/-- Concrete session holding an issued `oauth_state` of `s1`. -/
def sessIssued : Session := ⟨[("oauth_state", "s1")]⟩

/-- On the freshly migrated schema, the legacy INSERT (no `azure_user_id`
    value) always violates the NOT NULL constraint. -/
lemma createUser_always_fails (t : List UserRow) (d e n : String) :
    VerificationStore.CreateUser t d e n =
      (Except.error "failed to create user: NOT NULL constraint failed: users.azure_user_id", t) := by
  simp [VerificationStore.CreateUser, insertUsersRow]

/-- An insert attempt for a row with no `azure_user_id` never changes the
    users table (fault or NOT NULL violation). -/
lemma attemptInsert_none_snd (env : Env) (t : List UserRow) (r : UserRow)
    (h : r.azureUserID = none) : (attemptInsert env t r).2 = t := by
  by_cases hf : env.insertFault <;>
    simp [attemptInsert, hf, h, createUser_always_fails]

/-- C4: `VerificationStore.Get` returns not-found both when no record with
    the code exists and when the record satisfies `now >= expiresAt`; an
    unexpired matching record is returned (with its code and freshness
    guaranteed) and the store is left unchanged — the record is not
    consumed. -/
theorem c4_get_expiry_semantics (s : List VerRow) (c : String) (n : Int) :
    (VerificationStore.GetS s c n).2 = s ∧
    ((∀ r ∈ s, r.code ≠ c ∨ n ≥ r.expiresAt) →
      (VerificationStore.GetS s c n).1 = none) ∧
    (∀ vc, (VerificationStore.GetS s c n).1 = some vc →
      vc ∈ s ∧ vc.code = c ∧ n < vc.expiresAt) ∧
    ((∃ r ∈ s, r.code = c ∧ n < r.expiresAt) →
      ((VerificationStore.GetS s c n).1).isSome = true) := by
  refine ⟨rfl, ?_, ?_, ?_⟩
  · intro h
    apply List.find?_eq_none.mpr
    intro x hx
    rcases h x hx with h1 | h1
    · simp [h1]
    · simp only [Bool.and_eq_true, beq_iff_eq, decide_eq_true_eq, not_and]
      intro _
      omega
  · intro vc hvc
    have hp := List.find?_some hvc
    have hm := List.mem_of_find?_eq_some hvc
    simp only [Bool.and_eq_true, beq_iff_eq, decide_eq_true_eq] at hp
    exact ⟨hm, hp.1, hp.2⟩
  · rintro ⟨r, hr, hc, hlt⟩
    cases hf : (VerificationStore.GetS s c n).1 with
    | some vc => simp
    | none =>
      exfalso
      have := List.find?_eq_none.mp hf r hr
      simp [hc, hlt] at this

/-- Witness for C4 at a concrete store: the unexpired record is found. -/
theorem c4_get_expiry_semantics_witness :
    ((VerificationStore.GetS [⟨"c", "d", "e", 10, 0⟩] "c" 5).1).isSome = true :=
  (c4_get_expiry_semantics [⟨"c", "d", "e", 10, 0⟩] "c" 5).2.2.2
    ⟨⟨"c", "d", "e", 10, 0⟩, by decide, by decide, by decide⟩

/-- C8: `VerificationStore.Delete` never fails (total, returns ok), is a
    no-op on a store without the code, and deleting the same code twice is
    the same as deleting it once. -/
theorem c8_delete_idempotent (s : List VerRow) (c : String) :
    (VerificationStore.Delete s c).1 = Except.ok () ∧
    ((∀ r ∈ s, r.code ≠ c) → VerificationStore.Delete s c = (Except.ok (), s)) ∧
    (VerificationStore.Delete (VerificationStore.Delete s c).2 c =
      VerificationStore.Delete s c) := by
  refine ⟨rfl, ?_, ?_⟩
  · intro h
    simp only [VerificationStore.Delete, Prod.mk.injEq, true_and]
    apply List.filter_eq_self.mpr
    intro a ha
    simpa using h a ha
  · simp [VerificationStore.Delete, List.filter_filter]

/-- Witness for C8: deleting a code absent from a concrete store is a
    no-op success. -/
theorem c8_delete_idempotent_witness :
    VerificationStore.Delete [⟨"c", "d", "e", 10, 0⟩] "x" =
      (Except.ok (), [⟨"c", "d", "e", 10, 0⟩]) :=
  (c8_delete_idempotent [⟨"c", "d", "e", 10, 0⟩] "x").2.1 (by decide)

/-- C2: the users-table INSERT fails with a conflict error and leaves the
    table unchanged when a row with the same `discord_id` or the same
    `azure_user_id` already exists (both uniqueness constraints are
    enforced by the store itself, per the schema `migrate` creates);
    otherwise the row is appended. -/
theorem c2_insert_conflict (t : List UserRow) (d a e n : String) :
    ((∃ u ∈ t, u.discordID = d) →
      VerificationStore.CreateUserWithAzureID t d a e n =
        (Except.error "failed to create user: UNIQUE constraint failed: users.discord_id", t)) ∧
    ((∀ u ∈ t, u.discordID ≠ d) → (∃ u ∈ t, u.azureUserID = some a) →
      VerificationStore.CreateUserWithAzureID t d a e n =
        (Except.error "failed to create user: UNIQUE constraint failed: users.azure_user_id", t)) ∧
    ((∀ u ∈ t, u.discordID ≠ d) → (∀ u ∈ t, u.azureUserID ≠ some a) →
      VerificationStore.CreateUserWithAzureID t d a e n =
        (Except.ok (), t ++ [⟨d, some a, e, n⟩])) := by
  refine ⟨?_, ?_, ?_⟩
  · rintro ⟨u, hu, hud⟩
    have hany : t.any (fun u => u.discordID == d) = true :=
      List.any_eq_true.mpr ⟨u, hu, by simp [hud]⟩
    simp [VerificationStore.CreateUserWithAzureID, insertUsersRow, hany]
  · intro h1
    rintro ⟨u, hu, hua⟩
    have hany1 : t.any (fun u => u.discordID == d) = false := by
      simp only [List.any_eq_false]
      intro x hx
      simpa using h1 x hx
    have hany2 : t.any (fun u => u.azureUserID == some a) = true :=
      List.any_eq_true.mpr ⟨u, hu, by simp [hua]⟩
    simp [VerificationStore.CreateUserWithAzureID, insertUsersRow, hany1, hany2]
  · intro h1 h2
    have hany1 : t.any (fun u => u.discordID == d) = false := by
      simp only [List.any_eq_false]
      intro x hx
      simpa using h1 x hx
    have hany2 : t.any (fun u => u.azureUserID == some a) = false := by
      simp only [List.any_eq_false]
      intro x hx
      simpa using h2 x hx
    simp [VerificationStore.CreateUserWithAzureID, insertUsersRow, hany1, hany2]

/-- Witness for C2: inserting a second row with an existing `discord_id`
    into a concrete table fails and leaves the table unchanged. -/
theorem c2_insert_conflict_witness :
    VerificationStore.CreateUserWithAzureID
        [⟨"d1", some "a1", "x@shopware.com", "X"⟩] "d1" "a2" "y@shopware.com" "Y" =
      (Except.error "failed to create user: UNIQUE constraint failed: users.discord_id",
        [⟨"d1", some "a1", "x@shopware.com", "X"⟩]) :=
  (c2_insert_conflict [⟨"d1", some "a1", "x@shopware.com", "X"⟩]
      "d1" "a2" "y@shopware.com" "Y").1
    ⟨⟨"d1", some "a1", "x@shopware.com", "X"⟩, by decide, by decide⟩

/-- Folding `latestStep` from a present accumulator stays present. -/
lemma foldl_latestStep_isSome (l : List VerRow) (m : VerRow) :
    (l.foldl latestStep (some m)).isSome = true := by
  induction l generalizing m with
  | nil => rfl
  | cons x xs ih =>
    simp only [List.foldl_cons, latestStep]
    by_cases hc : m.createdAt < x.createdAt <;> simp [hc, ih]

/-- Folding `latestStep` returns an element of the accumulator-or-list
    whose `created_at` dominates the accumulator and every list element. -/
lemma foldl_latestStep_spec (l : List VerRow) (m0 m : VerRow)
    (h : l.foldl latestStep (some m0) = some m) :
    (m = m0 ∨ m ∈ l) ∧ m0.createdAt ≤ m.createdAt ∧
      ∀ r ∈ l, r.createdAt ≤ m.createdAt := by
  induction l generalizing m0 with
  | nil =>
    simp only [List.foldl_nil, Option.some.injEq] at h
    subst h
    exact ⟨Or.inl rfl, le_refl _, by simp⟩
  | cons x xs ih =>
    simp only [List.foldl_cons, latestStep] at h
    by_cases hc : m0.createdAt < x.createdAt
    · rw [if_pos hc] at h
      obtain ⟨hmem, hle, hall⟩ := ih x h
      refine ⟨?_, ?_, ?_⟩
      · rcases hmem with h' | h'
        · exact Or.inr (by simp [h'])
        · exact Or.inr (List.mem_cons_of_mem x h')
      · omega
      · intro r hr
        rcases List.mem_cons.mp hr with h' | h'
        · subst h'; omega
        · exact hall r h'
    · rw [if_neg hc] at h
      obtain ⟨hmem, hle, hall⟩ := ih m0 h
      refine ⟨?_, hle, ?_⟩
      · rcases hmem with h' | h'
        · exact Or.inl h'
        · exact Or.inr (List.mem_cons_of_mem x h')
      · intro r hr
        rcases List.mem_cons.mp hr with h' | h'
        · subst h'; omega
        · exact hall r h'

/-- C10: `VerificationStore.GetByDiscordID` returns not-found exactly when
    every code for the Discord ID is expired or none exists; otherwise it
    returns one record that matches the ID, is unexpired, and has a
    `created_at` no smaller than any other unexpired record for that ID. -/
theorem c10_get_by_discord_id_latest (s : List VerRow) (d : String) (n : Int) :
    ((∀ r ∈ s, r.discordID ≠ d ∨ n ≥ r.expiresAt) →
      VerificationStore.GetByDiscordID s d n = none) ∧
    (∀ vc, VerificationStore.GetByDiscordID s d n = some vc →
      vc ∈ s ∧ vc.discordID = d ∧ n < vc.expiresAt ∧
      ∀ r ∈ s, r.discordID = d → n < r.expiresAt →
        r.createdAt ≤ vc.createdAt) ∧
    ((∃ r ∈ s, r.discordID = d ∧ n < r.expiresAt) →
      (VerificationStore.GetByDiscordID s d n).isSome = true) := by
  refine ⟨?_, ?_, ?_⟩
  · intro h
    have hF : s.filter (fun r => r.discordID == d && decide (n < r.expiresAt)) = [] := by
      apply List.filter_eq_nil_iff.mpr
      intro a ha
      rcases h a ha with h1 | h1
      · simp [h1]
      · simp only [Bool.and_eq_true, beq_iff_eq, decide_eq_true_eq, not_and]
        intro _
        omega
    simp [VerificationStore.GetByDiscordID, hF]
  · intro vc hvc
    unfold VerificationStore.GetByDiscordID at hvc
    cases hF : s.filter (fun r => r.discordID == d && decide (n < r.expiresAt)) with
    | nil => rw [hF] at hvc; simp at hvc
    | cons x xs =>
      rw [hF] at hvc
      simp only [List.foldl_cons, latestStep] at hvc
      obtain ⟨hmem, _, hall⟩ := foldl_latestStep_spec xs x vc hvc
      have hvcF : vc ∈ s.filter (fun r => r.discordID == d && decide (n < r.expiresAt)) := by
        rw [hF]
        rcases hmem with h' | h'
        · simp [h']
        · exact List.mem_cons_of_mem x h'
      have hvcP := List.mem_filter.mp hvcF
      simp only [Bool.and_eq_true, beq_iff_eq, decide_eq_true_eq] at hvcP
      refine ⟨hvcP.1, hvcP.2.1, hvcP.2.2, ?_⟩
      intro r hr hrd hrx
      have hrF : r ∈ s.filter (fun r => r.discordID == d && decide (n < r.expiresAt)) :=
        List.mem_filter.mpr ⟨hr, by simp [hrd, hrx]⟩
      rw [hF] at hrF
      rcases List.mem_cons.mp hrF with h' | h'
      · subst h'
        obtain ⟨_, hle, _⟩ := foldl_latestStep_spec xs r vc hvc
        exact hle
      · exact hall r h'
  · rintro ⟨r, hr, hrd, hrx⟩
    have hrF : r ∈ s.filter (fun r => r.discordID == d && decide (n < r.expiresAt)) :=
      List.mem_filter.mpr ⟨hr, by simp [hrd, hrx]⟩
    unfold VerificationStore.GetByDiscordID
    cases hF : s.filter (fun r => r.discordID == d && decide (n < r.expiresAt)) with
    | nil => rw [hF] at hrF; simp at hrF
    | cons x xs =>
      simp only [List.foldl_cons, latestStep]
      exact foldl_latestStep_isSome xs x

/-- Witness for C10: on a concrete store with an expired and two unexpired
    codes for the same Discord ID, the later unexpired one is found. -/
theorem c10_get_by_discord_id_latest_witness :
    (VerificationStore.GetByDiscordID
        [⟨"c1", "d", "e", 3, 0⟩, ⟨"c2", "d", "e", 10, 1⟩, ⟨"c3", "d", "e", 10, 2⟩]
        "d" 5).isSome = true :=
  (c10_get_by_discord_id_latest
      [⟨"c1", "d", "e", 3, 0⟩, ⟨"c2", "d", "e", 10, 1⟩, ⟨"c3", "d", "e", 10, 2⟩]
      "d" 5).2.2
    ⟨⟨"c2", "d", "e", 10, 1⟩, by decide, by decide, by decide⟩

/-- C6: a grant call whose email fails the suffix-based allow-list check
    returns the policy rejection with no external call made (empty trace)
    and no GrantedUser row created; `VerifyUserDirectly` leaves the whole
    state untouched, `VerifyUser` only deletes the verification code. -/
theorem c6_policy_rejection_before_externals :
    (∀ (env : Env) (w : World) (d a e : String),
      hasSuffix e "@shopware.com" = false →
      VerifyUserDirectly env w d a e =
        ⟨Except.error "email domain not allowed", w, []⟩) ∧
    (∀ (env : Env) (w : World) (c : String) (vc : VerRow),
      VerificationStore.Get w.verifications c env.now = some vc →
      hasSuffix vc.email "@shopware.com" = false →
      (VerifyUser env w c).result = Except.error "email domain not allowed" ∧
      (VerifyUser env w c).trace = [] ∧
      (VerifyUser env w c).world.users = w.users) := by
  constructor
  · intro env w d a e h
    simp [VerifyUserDirectly, h]
  · intro env w c vc hget h
    simp [VerifyUser, hget, h]

/-- Witness for C6: a disallowed-domain email is rejected on a concrete
    state with nothing in the trace. -/
theorem c6_policy_rejection_before_externals_witness :
    VerifyUserDirectly envOK wEmpty "d" "a" "x@gmail.com" =
      ⟨Except.error "email domain not allowed", wEmpty, []⟩ :=
  c6_policy_rejection_before_externals.1 envOK wEmpty "d" "a" "x@gmail.com"
    (by decide)

/-- C9: the allow-list check of the grant operation accepts exactly the
    emails with the literal, case-sensitive suffix `"@shopware.com"`: the
    policy error is returned iff the suffix test fails, and in particular
    an email ending in `"@Shopware.com"` is rejected. -/
theorem c9_allowlist_literal_suffix :
    (∀ (env : Env) (w : World) (d a e : String),
      (VerifyUserDirectly env w d a e).result =
          Except.error "email domain not allowed" ↔
        hasSuffix e "@shopware.com" = false) ∧
    (∀ (env : Env) (w : World) (d a : String),
      (VerifyUserDirectly env w d a "x@Shopware.com").result =
        Except.error "email domain not allowed") := by
  constructor
  · intro env w d a e
    constructor
    · intro hres
      by_contra hne
      rw [Bool.not_eq_false] at hne
      unfold VerifyUserDirectly at hres
      rw [hne] at hres
      simp only [Bool.not_true, Bool.false_eq_true, if_false] at hres
      split_ifs at hres <;> simp_all
    · intro h
      simp [VerifyUserDirectly, h]
  · intro env w d a
    have h : hasSuffix "x@Shopware.com" "@shopware.com" = false := by decide
    simp [VerifyUserDirectly, h]

/-- Witness for C9: a concrete other-domain email draws the policy
    rejection. -/
theorem c9_allowlist_literal_suffix_witness :
    (VerifyUserDirectly envOK wEmpty "d" "a" "x@gmail.com").result =
      Except.error "email domain not allowed" :=
  (c9_allowlist_literal_suffix.1 envOK wEmpty "d" "a" "x@gmail.com").mpr
    (by decide)

/-- C3: once the external role assignment has succeeded, a failure of the
    persistence step (simulated store fault, or the always-failing legacy
    INSERT on the code path) is swallowed: the grant still returns nil and
    no row is stored; the persistence step is still attempted, with the
    placeholder name `"Unknown"` when the display-name lookup failed. -/
theorem c3_persistence_failure_swallowed :
    (∀ (env : Env) (w : World) (d a e : String),
      hasSuffix e "@shopware.com" = true →
      VerificationStore.IsUserVerifiedByAzureID w.users a = false →
      env.roleAddOk = true →
      env.insertFault = true →
      (VerifyUserDirectly env w d a e).result = Except.ok () ∧
      (VerifyUserDirectly env w d a e).world.users = w.users ∧
      (env.userLookup d = none →
        Event.insertUser ⟨d, some a, e, "Unknown"⟩ ∈
          (VerifyUserDirectly env w d a e).trace)) ∧
    (∀ (env : Env) (w : World) (c : String) (vc : VerRow),
      VerificationStore.Get w.verifications c env.now = some vc →
      hasSuffix vc.email "@shopware.com" = true →
      VerificationStore.IsUserVerified w.users vc.discordID = false →
      env.roleAddOk = true →
      (VerifyUser env w c).result = Except.ok () ∧
      (VerifyUser env w c).world.users = w.users) := by
  constructor
  · intro env w d a e h1 h2 h3 h4
    refine ⟨?_, ?_, ?_⟩
    · simp [VerifyUserDirectly, h1, h2, h3]
    · simp [VerifyUserDirectly, h1, h2, h3, attemptInsert, h4]
    · intro hu
      simp [VerifyUserDirectly, h1, h2, h3, hu]
  · intro env w c vc hget h1 h2 h3
    constructor
    · simp [VerifyUser, hget, h1, h2, h3]
    · simp only [VerifyUser, hget, h1, h2, h3]
      simp only [Bool.not_true, Bool.false_eq_true, if_false, Bool.not_false,
        if_true]
      exact attemptInsert_none_snd env w.users
        ⟨vc.discordID, none, vc.email, (env.userLookup vc.discordID).getD "Unknown"⟩
        rfl

/-- Witness for C3: with a faulting store and a failing name lookup on a
    concrete state, the grant still reports success, nothing is persisted,
    and the insert was attempted with the placeholder name. -/
theorem c3_persistence_failure_swallowed_witness :
    (VerifyUserDirectly envFaulty wEmpty "d" "a" "x@shopware.com").result =
        Except.ok () ∧
      (VerifyUserDirectly envFaulty wEmpty "d" "a" "x@shopware.com").world.users =
        wEmpty.users ∧
      Event.insertUser ⟨"d", some "a", "x@shopware.com", "Unknown"⟩ ∈
        (VerifyUserDirectly envFaulty wEmpty "d" "a" "x@shopware.com").trace := by
  have h := c3_persistence_failure_swallowed.1 envFaulty wEmpty "d" "a"
    "x@shopware.com" (by decide) (by decide) (by decide) (by decide)
  exact ⟨h.1, h.2.1, h.2.2 rfl⟩

/-- The wrapped INSERT leaves the table exactly as `insertUsersRow` does. -/
lemma createUserWithAzureID_snd (t : List UserRow) (d a e n : String) :
    (VerificationStore.CreateUserWithAzureID t d a e n).2 =
      (insertUsersRow t ⟨d, some a, e, n⟩).2 := by
  unfold VerificationStore.CreateUserWithAzureID
  rcases hi : insertUsersRow t ⟨d, some a, e, n⟩ with ⟨res, t'⟩
  cases res <;> simp

/-- The schema-checked INSERT preserves distinctness of `discord_id`. -/
lemma insertUsersRow_uniqueDiscord (t : List UserRow) (r : UserRow)
    (h : UniqueDiscord t) : UniqueDiscord (insertUsersRow t r).2 := by
  unfold insertUsersRow
  split_ifs with h1 h2 h3
  · exact h
  · exact h
  · exact h
  · apply List.pairwise_append.mpr
    refine ⟨h, List.pairwise_singleton _ _, ?_⟩
    intro u hu v hv
    simp only [List.mem_singleton] at hv
    subst hv
    intro he
    exact h2 (List.any_eq_true.mpr ⟨u, hu, by simp [he]⟩)

/-- The handlers' insert attempt preserves distinctness of `discord_id`. -/
lemma attemptInsert_uniqueDiscord (env : Env) (t : List UserRow) (r : UserRow)
    (h : UniqueDiscord t) : UniqueDiscord (attemptInsert env t r).2 := by
  by_cases hf : env.insertFault
  · simpa [attemptInsert, hf] using h
  · cases hr : r.azureUserID with
    | none => rw [attemptInsert_none_snd env t r hr]; exact h
    | some a =>
      simp only [attemptInsert, hf, if_false, hr, Option.isNone_some,
        Bool.false_eq_true, createUserWithAzureID_snd]
      exact insertUsersRow_uniqueDiscord t _ h

/-- C1 counterexample: Discord ID `d1` already has a GrantedUser record,
    yet `VerifyUserDirectly` for `d1` with a fresh Azure ID is not
    rejected — it returns success and the external role assignment is
    performed. -/
theorem c1_counterexample :
    VerificationStore.IsUserVerified wGranted.users "d1" = true ∧
    (VerifyUserDirectly envOK wGranted "d1" "a2" "new@shopware.com").result =
      Except.ok () ∧
    Event.roleAdd "d1" ∈
      (VerifyUserDirectly envOK wGranted "d1" "a2" "new@shopware.com").trace := by
  refine ⟨by decide, by rfl, by decide⟩

/-- C1 amended: `VerifyUser` (the code path) rejects with "user is
    already verified" before the role assignment when the code's Discord
    ID already has a record; `VerifyUserDirectly` performs that
    pre-assignment rejection only for the Azure user ID; and in all
    cases at most one GrantedUser record per Discord ID ever exists,
    because the store's UNIQUE constraint on `discord_id` rejects any
    duplicate insert. -/
theorem c1_amended_already_verified :
    (∀ (env : Env) (w : World) (c : String) (vc : VerRow),
      VerificationStore.Get w.verifications c env.now = some vc →
      hasSuffix vc.email "@shopware.com" = true →
      VerificationStore.IsUserVerified w.users vc.discordID = true →
      (VerifyUser env w c).result = Except.error "user is already verified" ∧
      (VerifyUser env w c).trace = []) ∧
    (∀ (env : Env) (w : World) (d a e : String),
      hasSuffix e "@shopware.com" = true →
      VerificationStore.IsUserVerifiedByAzureID w.users a = true →
      (VerifyUserDirectly env w d a e).result =
        Except.error "user is already verified" ∧
      (VerifyUserDirectly env w d a e).trace = []) ∧
    (∀ (env : Env) (w : World) (d a e : String),
      UniqueDiscord w.users →
      UniqueDiscord (VerifyUserDirectly env w d a e).world.users) ∧
    (∀ (env : Env) (w : World) (c : String),
      UniqueDiscord w.users →
      UniqueDiscord (VerifyUser env w c).world.users) := by
  refine ⟨?_, ?_, ?_, ?_⟩
  · intro env w c vc hget h1 h2
    constructor <;> simp [VerifyUser, hget, h1, h2]
  · intro env w d a e h1 h2
    constructor <;> simp [VerifyUserDirectly, h1, h2]
  · intro env w d a e h
    unfold VerifyUserDirectly
    split_ifs with h1 h2 h3 <;>
      first
        | exact h
        | exact attemptInsert_uniqueDiscord env w.users _ h
  · intro env w c h
    unfold VerifyUser
    cases hg : VerificationStore.Get w.verifications c env.now with
    | none => exact h
    | some vc =>
      simp only []
      split_ifs with h1 h2 h3 <;>
        first
          | exact h
          | exact attemptInsert_uniqueDiscord env w.users _ h

/-- Witness for C1 (amended): on a concrete state where Azure ID `a1` is
    already granted, `VerifyUserDirectly` rejects before the role
    assignment. -/
theorem c1_amended_already_verified_witness :
    (VerifyUserDirectly envOK wGranted "d9" "a1" "z@shopware.com").result =
        Except.error "user is already verified" ∧
      (VerifyUserDirectly envOK wGranted "d9" "a1" "z@shopware.com").trace = [] :=
  c1_amended_already_verified.2.1 envOK wGranted "d9" "a1" "z@shopware.com"
    (by decide) (by decide)

/-- C5: if the callback's `state` query parameter is not exactly equal to
    the `oauth_state` stored in the session, the callback renders an error
    page and its trace is empty — in particular the authorization-code
    exchange (claims resolution) is never attempted. -/
theorem c5_state_mismatch_no_exchange (env : Env) (oenv : OAuthEnv)
    (sess : Session) (w : World) (code state : String)
    (h : Session.get sess "oauth_state" ≠ some state) :
    (Callback env oenv sess w code state).result.isError = true ∧
    (Callback env oenv sess w code state).trace = [] := by
  unfold Callback
  split_ifs with h1 h2
  · exact ⟨rfl, rfl⟩
  · exact ⟨rfl, rfl⟩
  · cases hs : Session.get sess "oauth_state" with
    | none => exact ⟨rfl, rfl⟩
    | some st =>
      have hne : (st != state) = true := by
        have : st ≠ state := fun he => h (by rw [hs, he])
        simpa using this
      simp [hne, CbResult.isError]

/-- Witness for C5: a concrete callback arriving with `state = "s2"`
    while the session issued `"s1"` is rejected with an empty trace. -/
theorem c5_state_mismatch_no_exchange_witness :
    (Callback envOK oenvNone sessIssued wEmpty "authcode" "s2").result.isError =
        true ∧
      (Callback envOK oenvNone sessIssued wEmpty "authcode" "s2").trace = [] :=
  c5_state_mismatch_no_exchange envOK oenvNone sessIssued wEmpty "authcode" "s2"
    (by decide)

/-- C7: on a database created fresh by the current `migrate` (where
    `users.azure_user_id` is NOT NULL), the legacy
    `VerificationStore.CreateUser` fails for every input and leaves the
    table unchanged, so the code-based verification path (`VerifyUser`)
    never records a grant: its users table is unchanged on every path. -/
theorem c7_legacy_create_user_always_fails :
    (∀ (t : List UserRow) (d e n : String),
      VerificationStore.CreateUser t d e n =
        (Except.error "failed to create user: NOT NULL constraint failed: users.azure_user_id", t)) ∧
    (∀ (env : Env) (w : World) (code : String),
      (VerifyUser env w code).world.users = w.users) := by
  refine ⟨createUser_always_fails, ?_⟩
  intro env w code
  unfold VerifyUser
  cases hg : VerificationStore.Get w.verifications code env.now with
  | none => rfl
  | some vc =>
    simp only []
    split_ifs with h1 h2 h3 <;>
      first
      | rfl
      | exact attemptInsert_none_snd env w.users _ rfl
